import Mathlib

/-!
Shallow embedding of the Sushi Go starter-kit client core
(`src/python/src/ao_games/{types,errors,protocol,state}.py`).

Python strings are modelled as `List Char` (ASCII fragment of Python's
semantics); the standard-library string methods the source uses
(`strip`, `partition`, `split`, `rsplit`, `int(...)`) are given faithful
ASCII models below, prefixed `py`.  Fallible code is modelled with
`Except PyErr`.
-/

namespace SushiGo

/-- Convenience: the character list of a Lean string literal. -/
def chars (s : String) : List Char := s.data

/-- The whitespace set of Python's `str.strip()` / `str.split()` / `\s`
(ASCII fragment). -/
def isPySpace (c : Char) : Bool :=
  c = ' ' || c = '\t' || c = '\n' || c = '\r' || c = '\x0b' || c = '\x0c'

/-- Python `str.lstrip()`. -/
def pyLStrip (l : List Char) : List Char := l.dropWhile isPySpace

/-- Python `str.rstrip()`. -/
def pyRStrip (l : List Char) : List Char :=
  ((l.reverse).dropWhile isPySpace).reverse

/-- Python `str.strip()`. -/
def pyStrip (l : List Char) : List Char := pyRStrip (pyLStrip l)

/-- Python `line.partition(" ")`, keeping only the first and third
components (the source binds the separator to `_`).  When the separator
is absent, Python returns `(line, "", "")`, i.e. the payload is empty,
which this definition reproduces. -/
def pyPartitionSp (l : List Char) : List Char × List Char :=
  (l.takeWhile (fun c => c ≠ ' '), (l.dropWhile (fun c => c ≠ ' ')).drop 1)

/-- Helper for `pySplitWs`, fuel-recursive (the fuel is an upper bound
on the number of tokens and is always sufficient at the wrapper). -/
def pySplitWsAux : Nat → List Char → List (List Char)
  | 0, _ => []
  | fuel + 1, l =>
      match l.dropWhile isPySpace with
      | [] => []
      | c :: rest =>
          (c :: rest.takeWhile (fun d => ¬ isPySpace d)) ::
            pySplitWsAux fuel (rest.dropWhile (fun d => ¬ isPySpace d))

/-- Python `str.split()` (split on whitespace runs, no empty tokens). -/
def pySplitWs (l : List Char) : List (List Char) :=
  pySplitWsAux (l.length + 1) l

/-- Python `str.split(None, 1)`: at most one split; the remainder keeps
its trailing whitespace but the separator run before it is consumed. -/
def pySplitWs1 (l : List Char) : List (List Char) :=
  let t := l.dropWhile isPySpace
  if t = [] then []
  else
    let tok := t.takeWhile (fun d => ¬ isPySpace d)
    let rest := (t.dropWhile (fun d => ¬ isPySpace d)).dropWhile isPySpace
    if rest = [] then [tok] else [tok, rest]

/-- Python `str.split(None, 2)`: at most two splits. -/
def pySplitWs2 (l : List Char) : List (List Char) :=
  let t := l.dropWhile isPySpace
  if t = [] then []
  else
    let tok := t.takeWhile (fun d => ¬ isPySpace d)
    let r := (t.dropWhile (fun d => ¬ isPySpace d))
    tok :: pySplitWs1 r

/-- Python `str.rsplit(None, 1)`. -/
def pyRSplitWs1 (l : List Char) : List (List Char) :=
  let rev := (l.reverse).dropWhile isPySpace
  if rev = [] then []
  else
    let tok := (rev.takeWhile (fun d => ¬ isPySpace d)).reverse
    let rest := ((rev.dropWhile (fun d => ¬ isPySpace d)).dropWhile isPySpace).reverse
    if rest = [] then [tok] else [rest, tok]

/-- Index of the first occurrence of substring `sep` in `l`. -/
def findSub (sep : List Char) (l : List Char) : Option Nat :=
  if sep.isPrefixOf l then some 0
  else
    match l with
    | [] => none
    | _ :: t => (findSub sep t).map (· + 1)

/-- Helper for `pySplitSub`, fuel-recursive (the fuel is always
sufficient at the wrapper for the nonempty separators the source uses). -/
def pySplitSubAux (sep : List Char) : Nat → List Char → List (List Char)
  | 0, l => [l]
  | fuel + 1, l =>
      match findSub sep l with
      | none => [l]
      | some i => l.take i :: pySplitSubAux sep fuel (l.drop (i + sep.length))

/-- Python `str.split(sep)` for a nonempty literal separator: empty
pieces are kept, and splitting the empty string yields `[""]`. -/
def pySplitSub (sep : List Char) (l : List Char) : List (List Char) :=
  pySplitSubAux sep (l.length + 1) l

/-- Python `str.split(sep, 1)` for a nonempty literal separator. -/
def pySplitSub1 (sep : List Char) (l : List Char) : List (List Char) :=
  match findSub sep l with
  | none => [l]
  | some i => [l.take i, l.drop (i + sep.length)]

/-- Numeric value of a digit list (used where a regex has already
guaranteed that all characters are digits, mirroring Python `int` on a
digit string). -/
def digitsVal (l : List Char) : Nat :=
  l.foldl (fun a c => a * 10 + (c.toNat - 48)) 0

/-- Helper for `pyInt`: digits with single underscores allowed between
digits (Python 3 `int` literal rule), accumulating the value.  The
input follows an already-consumed digit. -/
def digitsUAux : Nat → List Char → Option Nat
  | acc, [] => some acc
  | acc, '_' :: c :: t =>
      if c.isDigit then digitsUAux (acc * 10 + (c.toNat - 48)) t else none
  | _, ['_'] => none
  | acc, c :: t =>
      if c.isDigit then digitsUAux (acc * 10 + (c.toNat - 48)) t else none

/-- Digit run with optional internal underscores; fails on empty input,
a leading underscore, a trailing underscore or a non-digit. -/
def digitsU : List Char → Option Nat
  | [] => none
  | c :: t => if c.isDigit then digitsUAux (c.toNat - 48) t else none

/-- Model of Python `int(s)` on ASCII input: surrounding whitespace is
ignored, an optional sign is allowed, then a digit run with optional
single underscores between digits. -/
def pyInt (l : List Char) : Option Int :=
  let s := pyStrip l
  match s with
  | '+' :: r => (digitsU r).map Int.ofNat
  | '-' :: r => (digitsU r).map (fun n => -(Int.ofNat n))
  | r => (digitsU r).map Int.ofNat

/-- Insert/replace in an insertion-ordered association list, modelling
Python `dict` assignment `d[k] = v`. -/
def dictInsert {α β : Type} [DecidableEq α] : List (α × β) → α → β → List (α × β)
  | [], k, v => [(k, v)]
  | (k0, v0) :: t, k, v =>
      if k0 = k then (k0, v) :: t else (k0, v0) :: dictInsert t k v

/-- Lookup in an association list, modelling Python `dict` get. -/
def alistGet {α β : Type} [DecidableEq α] : List (α × β) → α → Option β
  | [], _ => none
  | (k0, v0) :: t, k => if k0 = k then some v0 else alistGet t k

/-- The Python exceptions the embedded code can raise. -/
inductive PyErr where
  | valueError (msg : String)
  | protocolError (code : Nat) (msg : String)
  | indexError
  | keyError (k : String)
deriving DecidableEq, Repr

/-- `parts[i]` with Python's `IndexError` on out-of-range access. -/
def getIdx {α : Type} (l : List α) (i : Nat) : Except PyErr α :=
  match l.get? i with
  | some a => Except.ok a
  | none => Except.error PyErr.indexError

/-- `int(s)` raising `ValueError` on malformed input. -/
def pyIntE (l : List Char) : Except PyErr Int :=
  match pyInt l with
  | some n => Except.ok n
  | none => Except.error (PyErr.valueError "invalid literal for int")

/-- Whether an `Except` result is a success. -/
def isOkE {ε α : Type} : Except ε α → Bool
  | Except.ok _ => true
  | Except.error _ => false

/-- Whether an `Except` result failed with a `ProtocolError`. -/
def isProtocolFailure {α : Type} : Except PyErr α → Bool
  | Except.error (PyErr.protocolError _ _) => true
  | _ => false

/-! ## Card catalog (`types.py`) -/

/-- All card types in Sushi Go (`class Card(Enum)`). -/
inductive Card where
  | TEMPURA | SASHIMI | DUMPLING
  | MAKI_1 | MAKI_2 | MAKI_3
  | EGG_NIGIRI | SALMON_NIGIRI | SQUID_NIGIRI
  | PUDDING | WASABI | CHOPSTICKS
deriving DecidableEq, Repr, Fintype

/-- Enum values: the 3-letter protocol codes. -/
def Card.code : Card → String
  | .TEMPURA => "TMP"
  | .SASHIMI => "SSH"
  | .DUMPLING => "DMP"
  | .MAKI_1 => "MK1"
  | .MAKI_2 => "MK2"
  | .MAKI_3 => "MK3"
  | .EGG_NIGIRI => "EGG"
  | .SALMON_NIGIRI => "SAL"
  | .SQUID_NIGIRI => "SQD"
  | .PUDDING => "PUD"
  | .WASABI => "WAS"
  | .CHOPSTICKS => "CHP"

/-- `_CARD_NAMES` display names. -/
def Card.display_name : Card → String
  | .TEMPURA => "Tempura"
  | .SASHIMI => "Sashimi"
  | .DUMPLING => "Dumpling"
  | .MAKI_1 => "Maki Roll (1)"
  | .MAKI_2 => "Maki Roll (2)"
  | .MAKI_3 => "Maki Roll (3)"
  | .EGG_NIGIRI => "Egg Nigiri"
  | .SALMON_NIGIRI => "Salmon Nigiri"
  | .SQUID_NIGIRI => "Squid Nigiri"
  | .PUDDING => "Pudding"
  | .WASABI => "Wasabi"
  | .CHOPSTICKS => "Chopsticks"

/-- Declaration-order member list of the enum. -/
def cardList : List Card :=
  [.TEMPURA, .SASHIMI, .DUMPLING, .MAKI_1, .MAKI_2, .MAKI_3,
   .EGG_NIGIRI, .SALMON_NIGIRI, .SQUID_NIGIRI, .PUDDING, .WASABI, .CHOPSTICKS]

/-- `Card.from_code`: enum lookup by value, `ValueError` on unknown code. -/
def Card.from_code (code : String) : Except PyErr Card :=
  match cardList.find? (fun k => k.code = code) with
  | some k => Except.ok k
  | none => Except.error (PyErr.valueError ("Unknown card code: " ++ code))

/-- `Card.from_name`: `_NAME_TO_CARD` lookup, `ValueError` on unknown name. -/
def Card.from_name (name : String) : Except PyErr Card :=
  match cardList.find? (fun k => k.display_name = name) with
  | some k => Except.ok k
  | none => Except.error (PyErr.valueError ("Unknown card name: " ++ name))

/-- A card in the player's hand with its index (`HandCard`). -/
structure HandCard where
  index : Int
  card : Card
deriving DecidableEq, Repr

/-- Breakdown of points scored in a round (`RoundScore`). -/
structure RoundScore where
  maki_points : Int := 0
  tempura_points : Int := 0
  sashimi_points : Int := 0
  dumpling_points : Int := 0
  nigiri_points : Int := 0
  total : Int := 0
deriving DecidableEq, Repr

/-- Player status within a game (`PlayerStatus`). -/
structure PlayerStatus where
  name : String
  has_submitted : Bool := false
  puddings : Int := 0
  maki_count : Int := 0
deriving DecidableEq, Repr

/-- Full game status (`GameStatus`). -/
structure GameStatus where
  game_id : String
  phase : String
  round : Int
  turn : Int
  players : List PlayerStatus := []
  your_played_cards : List String := []
  your_puddings : Int := 0
  your_chopsticks : Int := 0
  your_wasabi_slots : Int := 0
deriving DecidableEq, Repr

/-- Summary info for a game (`GameInfo`). -/
structure GameInfo where
  id : String
  player_count : Int
  max_players : Int
  status : String
deriving DecidableEq, Repr

/-! ## Error mapping (`errors.py`) -/

/-- `ErrorCode.from_code_str`: `'E001' -> 1`.  The enum constructor
`cls(int(...))` additionally raises `ValueError` when the integer is
not a member (members are 1..18). -/
def errorCodeFromStr (code : List Char) : Except PyErr Nat :=
  if ('E' :: (code.drop 1)) = code ∧ code.length = 4 then
    match pyInt (code.drop 1) with
    | some n =>
        if 1 ≤ n ∧ n ≤ 18 then Except.ok n.toNat
        else Except.error (PyErr.valueError "not a valid ErrorCode")
    | none => Except.error (PyErr.valueError "invalid literal for int")
  else Except.error (PyErr.valueError "Invalid error code format")

/-- `ProtocolError.from_line`: parse `'ERROR E001 msg'`.  Returns the
exception that `raise ProtocolError.from_line(line)` ends up raising:
the `ProtocolError` itself on a well-formed line, else the `ValueError`
raised while building it. -/
def protocolErrorFromLine (line : List Char) : PyErr :=
  let parts := pySplitWs2 line
  if parts.length < 3 ∨ parts.get? 0 ≠ some (chars "ERROR") then
    PyErr.valueError ("Not an error line: " ++ String.mk line)
  else
    match parts.get? 1 with
    | none => PyErr.valueError ("Not an error line: " ++ String.mk line)
    | some codeStr =>
        match errorCodeFromStr codeStr with
        | Except.error e => e
        | Except.ok c =>
            match parts.get? 2 with
            | none => PyErr.valueError ("Not an error line: " ++ String.mk line)
            | some msg => PyErr.protocolError c (String.mk msg)

/-! ## JSON model

Model of Python `json.loads` restricted to the fragment the protocol's
structured payloads use: objects, arrays, strings without `\u` escapes,
integers (no floats), booleans and null.  Inputs outside this fragment
fail where Python would succeed (e.g. float literals); no claim touches
such inputs.  Duplicate object keys follow Python `dict` semantics
(later value wins, first insertion position kept). -/

/-- JSON values. -/
inductive JVal where
  | jnull
  | jbool (b : Bool)
  | jint (n : Int)
  | jstr (s : String)
  | jarr (xs : List JVal)
  | jobj (fields : List (String × JVal))

/-- Characters JSON treats as insignificant whitespace. -/
def isJsonWs (c : Char) : Bool :=
  c = ' ' || c = '\t' || c = '\n' || c = '\r'

def jskip (l : List Char) : List Char := l.dropWhile isJsonWs

/-- The `{`, `}` and `"` characters. -/
def lbraceChar : Char := Char.ofNat 123
def rbraceChar : Char := Char.ofNat 125
def quoteChar : Char := Char.ofNat 34

/-- Scan a JSON string body (after the opening quote) up to its closing
quote, decoding simple escapes; `\u` escapes are outside the fragment. -/
def jstrBody : Nat → List Char → Option (List Char × List Char)
  | 0, _ => none
  | _, [] => none
  | fuel + 1, c :: t =>
      if c = quoteChar then some ([], t)
      else if c = '\\' then
        match t with
        | [] => none
        | e :: t' =>
            let dec : Option Char :=
              if e = quoteChar then some quoteChar
              else if e = '\\' then some '\\'
              else if e = '/' then some '/'
              else if e = 'n' then some '\n'
              else if e = 't' then some '\t'
              else if e = 'r' then some '\r'
              else if e = 'b' then some (Char.ofNat 8)
              else if e = 'f' then some (Char.ofNat 12)
              else none
            match dec with
            | none => none
            | some d =>
                match jstrBody fuel t' with
                | none => none
                | some (s, rest) => some (d :: s, rest)
      else
        match jstrBody fuel t with
        | none => none
        | some (s, rest) => some (c :: s, rest)

/-- JSON integer literal after an optional leading `-`: `0` or a
nonzero digit followed by digits; a following `.`, `e` or `E` would make
it a float, outside the fragment. -/
def jintLit (l : List Char) : Option (Int × List Char) :=
  let (neg, r) := match l with
    | '-' :: r => (true, r)
    | r => (false, r)
  let ds := r.takeWhile Char.isDigit
  let rest := r.drop ds.length
  if ds = [] then none
  else if ds.length > 1 ∧ ds.get? 0 = some '0' then none
  else
    match rest with
    | '.' :: _ => none
    | 'e' :: _ => none
    | 'E' :: _ => none
    | _ =>
        let v : Int := Int.ofNat (digitsVal ds)
        some (if neg then -v else v, rest)

mutual

/-- Parse one JSON value. -/
def jparse : Nat → List Char → Option (JVal × List Char)
  | 0, _ => none
  | fuel + 1, l =>
      let l := jskip l
      match l with
      | [] => none
      | c :: t =>
          if c = lbraceChar then
            let t' := jskip t
            match t' with
            | [] => none
            | d :: t'' =>
                if d = rbraceChar then some (JVal.jobj [], t'')
                else jobjFields fuel [] t'
          else if c = '[' then
            let t' := jskip t
            match t' with
            | [] => none
            | d :: t'' =>
                if d = ']' then some (JVal.jarr [], t'')
                else jarrItems fuel [] t'
          else if c = quoteChar then
            match jstrBody (t.length + 1) t with
            | none => none
            | some (s, rest) => some (JVal.jstr (String.mk s), rest)
          else if c = 't' then
            match t with
            | 'r' :: 'u' :: 'e' :: rest => some (JVal.jbool true, rest)
            | _ => none
          else if c = 'f' then
            match t with
            | 'a' :: 'l' :: 's' :: 'e' :: rest => some (JVal.jbool false, rest)
            | _ => none
          else if c = 'n' then
            match t with
            | 'u' :: 'l' :: 'l' :: rest => some (JVal.jnull, rest)
            | _ => none
          else
            match jintLit (c :: t) with
            | none => none
            | some (v, rest) => some (JVal.jint v, rest)

/-- Parse the members of a JSON object (at a position expecting a key). -/
def jobjFields : Nat → List (String × JVal) → List Char → Option (JVal × List Char)
  | 0, _, _ => none
  | fuel + 1, acc, l =>
      let l := jskip l
      match l with
      | [] => none
      | c :: t =>
          if c = quoteChar then
            match jstrBody (t.length + 1) t with
            | none => none
            | some (k, rest) =>
                match jskip rest with
                | ':' :: rest' =>
                    match jparse fuel rest' with
                    | none => none
                    | some (v, rest'') =>
                        let acc' := dictInsert acc (String.mk k) v
                        match jskip rest'' with
                        | ',' :: rest3 => jobjFields fuel acc' rest3
                        | d :: rest3 =>
                            if d = rbraceChar then some (JVal.jobj acc', rest3)
                            else none
                        | [] => none
                | _ => none
          else none

/-- Parse the items of a JSON array (at a position expecting a value). -/
def jarrItems : Nat → List JVal → List Char → Option (JVal × List Char)
  | 0, _, _ => none
  | fuel + 1, acc, l =>
      match jparse fuel l with
      | none => none
      | some (v, rest) =>
          match jskip rest with
          | ',' :: rest' => jarrItems fuel (acc ++ [v]) rest'
          | ']' :: rest' => some (JVal.jarr (acc ++ [v]), rest')
          | _ => none

end

/-- `json.loads`, on the fragment described above. -/
def jsonLoads (l : List Char) : Except PyErr JVal :=
  match jparse (l.length + 1) l with
  | some (v, rest) =>
      if jskip rest = [] then Except.ok v
      else Except.error (PyErr.valueError "Extra data")
  | none => Except.error (PyErr.valueError "JSON decode error")

/-! ## Server messages (`protocol.py` dataclasses) -/

/-- The closed union of server messages (`type ServerMessage = ...`). -/
inductive ServerMessage where
  | okMsg (details : Option String)
  | welcome (game_id : String) (player_id : Int) (rejoin_token : String)
  | rejoined (game_id : String) (player_id : Int)
  | created (game_id : String)
  | playerJoined (player_name : String) (player_count : Int) (max_players : Int)
  | playerLeft (player_name : String)
  | gameStart (player_count : Int) (move_timeout_ms : Int)
  | roundStart (round : Int)
  | hand (cards : List HandCard)
  | waiting (players : List String)
  | turnResult (plays : List (String × List Card))
  | roundEnd (round : Int) (scores : List (String × RoundScore))
  | gameEnd (final_scores : List (String × Int)) (winners : List String)
      (next_game_id : Option String) (tournament_winner : Option String)
  | statusMsg (status : GameStatus)
  | gamesList (games : List GameInfo)
  | tournamentWelcome (tournament_id : String) (player_count : Int)
      (max_players : Int) (rejoin_token : String)
  | tournamentRejoined (tournament_id : String) (player_name : String)
      (current_match_token : Option String)
  | tournamentPlayerJoined (tournament_id : String) (player_name : String)
      (player_count : Int) (max_players : Int)
  | tournamentMatchAssigned (tournament_id : String) (match_token : String)
      (round : Int) (opponent : Option String)
  | tournamentComplete (tournament_id : String) (winner : String)
deriving DecidableEq, Repr

/-! ## Hand payload tokenization

Model of `_HAND_TOKEN_RE = re.compile(r"(\d+):(.+?)(?=\s+\d+:|$)")` and
`finditer` over the payload: a match starts with a maximal digit run
followed by `:`; the lazy group extends one non-newline character at a
time until the lookahead (whitespace run then digits then `:`) or `$`
(end of input, or just before a final newline) holds; `finditer`
resumes after each match and otherwise advances one position. -/

/-- Whether `\d+:` matches at the head of `l`. -/
def markerAt (l : List Char) : Bool :=
  let d := l.takeWhile Char.isDigit
  (decide (d ≠ [])) &&
    (match l.drop d.length with
     | ':' :: _ => true
     | _ => false)

/-- Whether the lookahead `\s+\d+:` matches at the head of `l`. -/
def lookaheadOk (l : List Char) : Bool :=
  let w := l.takeWhile isPySpace
  (decide (w ≠ [])) && markerAt (l.drop w.length)

/-- Whether `$` matches at the head of `l` (no `re.MULTILINE`). -/
def dollarOk (l : List Char) : Bool :=
  decide (l = []) || decide (l = ['\n'])

/-- Lazy `(.+?)` scan: the minimal positive number of non-newline
characters after which the lookahead or `$` holds. -/
def scanG2Aux : List Char → Nat → Option Nat
  | [], _ => none
  | c :: t, n =>
      if c = '\n' then none
      else if lookaheadOk t || dollarOk t then some (n + 1)
      else scanG2Aux t (n + 1)

def scanG2 (rest : List Char) : Option Nat := scanG2Aux rest 0

/-- The characters after a marker's colon: the region the lazy group
scans. -/
def afterColon (l : List Char) : List Char :=
  l.drop ((l.takeWhile Char.isDigit).length + 1)

/-- `finditer` over the hand payload: the list of `(digits, rawName)`
pairs, fuel-recursive (fuel is always sufficient at the wrapper). -/
def handTokensAux : Nat → List Char → List (List Char × List Char)
  | 0, _ => []
  | _, [] => []
  | fuel + 1, l@(_ :: t) =>
      if markerAt l then
        match scanG2 (afterColon l) with
        | some n =>
            (l.takeWhile Char.isDigit, (afterColon l).take n) ::
              handTokensAux fuel ((afterColon l).drop n)
        | none => handTokensAux fuel t
      else handTokensAux fuel t

def handTokens (l : List Char) : List (List Char × List Char) :=
  handTokensAux (l.length + 1) l

/-- Exception-propagating map (a Python list comprehension whose
element expression may raise: the first failure aborts the whole
construction). -/
def mapME {α β : Type} (f : α → Except PyErr β) : List α → Except PyErr (List β)
  | [] => Except.ok []
  | a :: as =>
      match f a with
      | Except.error e => Except.error e
      | Except.ok b =>
          match mapME f as with
          | Except.error e => Except.error e
          | Except.ok bs => Except.ok (b :: bs)

/-- `_parse_hand`. -/
def parse_hand (payload : List Char) : Except PyErr (List HandCard) :=
  mapME (fun p =>
      (Card.from_name (String.mk (pyStrip p.2))).map
        (fun c => HandCard.mk (Int.ofNat (digitsVal p.1)) c))
    (handTokens payload)

/-! ## Turn-result payload (`_parse_played`) -/

/-- Process one `; `-separated entry: `None` when the stripped entry is
empty (the loop `continue`s), the `(name, cards)` pair otherwise;
an entry without `:` raises the unpacking `ValueError`. -/
def playedEntry (entry : List Char) : Except PyErr (Option (String × List Card)) :=
  if pyStrip entry = [] then Except.ok none
  else
    match pySplitSub1 (chars ":") (pyStrip entry) with
    | [nm, codesStr] =>
        match mapME (fun c => Card.from_code (String.mk (pyStrip c)))
            ((pySplitSub (chars ",") codesStr).filter
              (fun c => pyStrip c ≠ [])) with
        | Except.error e => Except.error e
        | Except.ok cs => Except.ok (some (String.mk nm, cs))
    | _ => Except.error (PyErr.valueError "not enough values to unpack")

/-- Sequential processing of the entries, the first failure aborting. -/
def foldPlayedEntries : List (List Char) → Except PyErr (List (String × List Card))
  | [] => Except.ok []
  | e :: rest =>
      match playedEntry e with
      | Except.error err => Except.error err
      | Except.ok none => foldPlayedEntries rest
      | Except.ok (some p) =>
          match foldPlayedEntries rest with
          | Except.error err => Except.error err
          | Except.ok l => Except.ok (p :: l)

/-- `_parse_played`: parse `'Alice:TMP; Bob:MK3,WAS'`. -/
def parse_played (payload : List Char) : Except PyErr (List (String × List Card)) :=
  foldPlayedEntries (pySplitSub (chars "; ") payload)

/-! ## Structured payloads -/

/-- `d.get(key, 0)` expecting an integer (fragment restriction: a
non-integer JSON value under a score key is outside the model). -/
def jGetIntD (d : List (String × JVal)) (k : String) : Except PyErr Int :=
  match alistGet d k with
  | none => Except.ok 0
  | some (JVal.jint n) => Except.ok n
  | some _ => Except.error (PyErr.valueError "non-integer field (model fragment)")

/-- `d.get(key, False)` expecting a boolean. -/
def jGetBoolD (d : List (String × JVal)) (k : String) : Except PyErr Bool :=
  match alistGet d k with
  | none => Except.ok false
  | some (JVal.jbool b) => Except.ok b
  | some _ => Except.error (PyErr.valueError "non-boolean field (model fragment)")

/-- `d[key]` expecting a string (`KeyError` when absent). -/
def jReqStr (d : List (String × JVal)) (k : String) : Except PyErr String :=
  match alistGet d k with
  | none => Except.error (PyErr.keyError k)
  | some (JVal.jstr s) => Except.ok s
  | some _ => Except.error (PyErr.valueError "non-string field (model fragment)")

/-- `d[key]` expecting an integer (`KeyError` when absent). -/
def jReqInt (d : List (String × JVal)) (k : String) : Except PyErr Int :=
  match alistGet d k with
  | none => Except.error (PyErr.keyError k)
  | some (JVal.jint n) => Except.ok n
  | some _ => Except.error (PyErr.valueError "non-integer field (model fragment)")

/-- `_parse_round_score`. -/
def parse_round_score (d : List (String × JVal)) : Except PyErr RoundScore := do
  let mk ← jGetIntD d "maki_points"
  let tp ← jGetIntD d "tempura_points"
  let sp ← jGetIntD d "sashimi_points"
  let dp ← jGetIntD d "dumpling_points"
  let np ← jGetIntD d "nigiri_points"
  let tot ← jGetIntD d "total"
  return RoundScore.mk mk tp sp dp np tot

/-- A JSON value as an object of integers, as the `GAME_END` score map
requires (`dict[str, int]`). -/
def jobjToIntMap : JVal → Except PyErr (List (String × Int))
  | JVal.jobj fs =>
      mapME (fun p =>
          match p.2 with
          | JVal.jint n => Except.ok (p.1, n)
          | _ => Except.error (PyErr.valueError "non-integer score (model fragment)"))
        fs
  | _ => Except.error (PyErr.valueError "non-object scores (model fragment)")

/-- The brace-balance scan of `_parse_game_end`: offset (relative to
the scan start) of the brace closing the block, `none` when the loop
runs out without `depth` returning to zero. -/
def braceBal : List Char → Int → Nat → Option Nat
  | [], _, _ => none
  | c :: t, depth, i =>
      if c = lbraceChar then braceBal t (depth + 1) (i + 1)
      else if c = rbraceChar then
        if depth - 1 = 0 then some i else braceBal t (depth - 1) (i + 1)
      else braceBal t depth (i + 1)

/-- Accumulate the trailing `KEY:value` tokens of a `GAME_END` line. -/
def gameEndTags :
    List (List Char) → List String × Option String × Option String →
      List String × Option String × Option String
  | [], acc => acc
  | part :: rest, (w, nx, tw) =>
      if (chars "WINNER:").isPrefixOf part then
        gameEndTags rest
          ((pySplitSub (chars ",") (part.drop 7)).map String.mk, nx, tw)
      else if (chars "NEXT:").isPrefixOf part then
        gameEndTags rest (w, some (String.mk (part.drop 5)), tw)
      else if (chars "TOURNAMENT_WINNER:").isPrefixOf part then
        gameEndTags rest (w, nx, some (String.mk (part.drop 18)))
      else gameEndTags rest (w, nx, tw)

/-- `_parse_game_end`. -/
def parse_game_end (payload : List Char) : Except PyErr ServerMessage := do
  match payload.findIdx? (fun c => c = lbraceChar) with
  | none => Except.error (PyErr.valueError "substring not found")
  | some js =>
      let tailFromBrace := payload.drop js
      let jsonEnd : Nat :=
        match braceBal tailFromBrace 0 0 with
        | some off => js + off
        | none => js
      let jsonStr := (payload.drop js).take (jsonEnd - js + 1)
      let v ← jsonLoads jsonStr
      let finalScores ← jobjToIntMap v
      let rest := pyStrip (payload.drop (jsonEnd + 1))
      let (w, nx, tw) := gameEndTags (pySplitWs rest) ([], none, none)
      return ServerMessage.gameEnd finalScores w nx tw

/-- `_parse_status_json`. -/
def parse_status_json (payload : List Char) : Except PyErr GameStatus := do
  let v ← jsonLoads payload
  match v with
  | JVal.jobj d => do
      let playersRaw : List JVal ←
        match alistGet d "players" with
        | none => Except.ok []
        | some (JVal.jarr xs) => Except.ok xs
        | some _ => Except.error (PyErr.valueError "non-array players (model fragment)")
      let players ← mapME (fun p =>
        match p with
        | JVal.jobj pd => do
            let nm ← jReqStr pd "name"
            let hs ← jGetBoolD pd "has_submitted"
            let pu ← jGetIntD pd "puddings"
            let mc ← jGetIntD pd "maki_count"
            return PlayerStatus.mk nm hs pu mc
        | _ => Except.error (PyErr.valueError "non-object player (model fragment)"))
        playersRaw
      let gid ← jReqStr d "game_id"
      let ph ← jReqStr d "phase"
      let rd ← jReqInt d "round"
      let tn ← jReqInt d "turn"
      let ypc : List String ←
        match alistGet d "your_played_cards" with
        | none => Except.ok []
        | some (JVal.jarr xs) =>
            mapME (fun x =>
                match x with
                | JVal.jstr s => Except.ok s
                | _ => Except.error (PyErr.valueError "non-string card (model fragment)"))
              xs
        | some _ => Except.error (PyErr.valueError "non-array cards (model fragment)")
      let yp ← jGetIntD d "your_puddings"
      let yc ← jGetIntD d "your_chopsticks"
      let yw ← jGetIntD d "your_wasabi_slots"
      return GameStatus.mk gid ph rd tn players ypc yp yc yw
  | _ => Except.error (PyErr.valueError "non-object status (model fragment)")

/-- `_parse_games_list`. -/
def parse_games_list (payload : List Char) : Except PyErr (List GameInfo) := do
  let v ← jsonLoads payload
  match v with
  | JVal.jarr items =>
      mapME (fun g =>
        match g with
        | JVal.jobj gd => do
            let i ← jReqStr gd "id"
            let pc ← jReqInt gd "player_count"
            let mp ← jReqInt gd "max_players"
            let st ← jReqStr gd "status"
            return GameInfo.mk i pc mp st
        | _ => Except.error (PyErr.valueError "non-object game (model fragment)"))
        items
  | _ => Except.error (PyErr.valueError "non-array games (model fragment)")

/-- Tuple unpacking `a, b = l` of a list: `ValueError` unless the list
has exactly two elements. -/
def unpack2 (l : List (List Char)) : Except PyErr (List Char × List Char) :=
  match l with
  | [a, b] => Except.ok (a, b)
  | _ => Except.error (PyErr.valueError "values to unpack")

/-- Body of `parse_server_message` after the initial `line.strip()`:
empty-check, keyword dispatch on the first component of
`line.partition(" ")`, and the per-keyword payload parsing. -/
def parseStripped (l : List Char) : Except PyErr ServerMessage :=
  if l = [] then Except.error (PyErr.valueError "Empty message")
  else
    let payload := (pyPartitionSp l).2
    match (pyPartitionSp l).1 with
    | ['O', 'K'] =>
      Except.ok (ServerMessage.okMsg
        (if payload = [] then none else some (String.mk payload)))
    | ['E', 'R', 'R', 'O', 'R'] =>
      Except.error (protocolErrorFromLine l)
    | ['W', 'E', 'L', 'C', 'O', 'M', 'E'] => do
      let parts := pySplitWs payload
      let gid ← getIdx parts 0
      let pid ← pyIntE (← getIdx parts 1)
      let tok ← getIdx parts 2
      return ServerMessage.welcome (String.mk gid) pid (String.mk tok)
    | ['R', 'E', 'J', 'O', 'I', 'N', 'E', 'D'] => do
      let parts := pySplitWs payload
      let gid ← getIdx parts 0
      let pid ← pyIntE (← getIdx parts 1)
      return ServerMessage.rejoined (String.mk gid) pid
    | ['C', 'R', 'E', 'A', 'T', 'E', 'D'] =>
      Except.ok (ServerMessage.created (String.mk (pyStrip payload)))
    | ['J', 'O', 'I', 'N', 'E', 'D'] => do
      let parts := pyRSplitWs1 payload
      let nm ← getIdx parts 0
      let cm ← getIdx parts 1
      let (cnt, mx) ← unpack2 (pySplitSub (chars "/") cm)
      let pc ← pyIntE cnt
      let mp ← pyIntE mx
      return ServerMessage.playerJoined (String.mk nm) pc mp
    | ['L', 'E', 'F', 'T'] =>
      Except.ok (ServerMessage.playerLeft (String.mk (pyStrip payload)))
    | ['G', 'A', 'M', 'E', '_', 'S', 'T', 'A', 'R', 'T'] => do
      let parts := pySplitWs payload
      let pc ← pyIntE (← getIdx parts 0)
      let timeout ← pyIntE (← getIdx parts 1)
      return ServerMessage.gameStart pc timeout
    | ['R', 'O', 'U', 'N', 'D', '_', 'S', 'T', 'A', 'R', 'T'] => do
      let r ← pyIntE (pyStrip payload)
      return ServerMessage.roundStart r
    | ['H', 'A', 'N', 'D'] => do
      let cards ← parse_hand payload
      return ServerMessage.hand cards
    | ['W', 'A', 'I', 'T', 'I', 'N', 'G'] =>
      Except.ok (ServerMessage.waiting ((pySplitWs payload).map String.mk))
    | ['P', 'L', 'A', 'Y', 'E', 'D'] => do
      let plays ← parse_played payload
      return ServerMessage.turnResult plays
    | ['R', 'O', 'U', 'N', 'D', '_', 'E', 'N', 'D'] => do
      let parts := pySplitWs1 payload
      let rn ← pyIntE (← getIdx parts 0)
      let v ← jsonLoads (← getIdx parts 1)
      match v with
      | JVal.jobj d => do
          let scores ← mapME (fun p =>
              match p.2 with
              | JVal.jobj sd => (parse_round_score sd).map (fun rs => (p.1, rs))
              | _ => Except.error (PyErr.valueError "non-object score (model fragment)"))
            d
          return ServerMessage.roundEnd rn scores
      | _ => Except.error (PyErr.valueError "non-object scores (model fragment)")
    | ['G', 'A', 'M', 'E', '_', 'E', 'N', 'D'] =>
      parse_game_end payload
    | ['S', 'T', 'A', 'T', 'U', 'S'] => do
      let st ← parse_status_json payload
      return ServerMessage.statusMsg st
    | ['G', 'A', 'M', 'E', 'S'] => do
      let gs ← parse_games_list payload
      return ServerMessage.gamesList gs
    | ['T', 'O', 'U', 'R', 'N', 'A', 'M', 'E', 'N', 'T', '_', 'W', 'E', 'L', 'C', 'O', 'M', 'E'] => do
      let parts := pySplitWs payload
      let p1 ← getIdx parts 1
      let (cnt, mx) ← unpack2 (pySplitSub (chars "/") p1)
      let tid ← getIdx parts 0
      let pc ← pyIntE cnt
      let mp ← pyIntE mx
      let tok ← getIdx parts 2
      return ServerMessage.tournamentWelcome (String.mk tid) pc mp (String.mk tok)
    | ['T', 'O', 'U', 'R', 'N', 'A', 'M', 'E', 'N', 'T', '_', 'R', 'E', 'J', 'O', 'I', 'N', 'E', 'D'] => do
      let parts := pySplitWs payload
      let tid ← getIdx parts 0
      let nm ← getIdx parts 1
      let tok := if parts.length > 2 then (parts.get? 2).map String.mk else none
      return ServerMessage.tournamentRejoined (String.mk tid) (String.mk nm) tok
    | ['T', 'O', 'U', 'R', 'N', 'A', 'M', 'E', 'N', 'T', '_', 'J', 'O', 'I', 'N', 'E', 'D'] => do
      let parts := pySplitWs payload
      let p2 ← getIdx parts 2
      let (cnt, mx) ← unpack2 (pySplitSub (chars "/") p2)
      let tid ← getIdx parts 0
      let nm ← getIdx parts 1
      let pc ← pyIntE cnt
      let mp ← pyIntE mx
      return ServerMessage.tournamentPlayerJoined (String.mk tid) (String.mk nm) pc mp
    | ['T', 'O', 'U', 'R', 'N', 'A', 'M', 'E', 'N', 'T', '_', 'M', 'A', 'T', 'C', 'H'] => do
      let parts := pySplitWs payload
      let oppRaw : Option (List Char) :=
        if parts.length > 3 then parts.get? 3 else none
      let opp : Option String :=
        match oppRaw with
        | some o => if o = chars "BYE" then none else some (String.mk o)
        | none => none
      let tid ← getIdx parts 0
      let mt ← getIdx parts 1
      let rn ← pyIntE (← getIdx parts 2)
      return ServerMessage.tournamentMatchAssigned (String.mk tid) (String.mk mt) rn opp
    | ['T', 'O', 'U', 'R', 'N', 'A', 'M', 'E', 'N', 'T', '_', 'C', 'O', 'M', 'P', 'L', 'E', 'T', 'E'] => do
      let parts := pySplitWs payload
      let tid ← getIdx parts 0
      let w ← getIdx parts 1
      return ServerMessage.tournamentComplete (String.mk tid) (String.mk w)
    | kw =>
      Except.error
        (PyErr.valueError ("Unknown server message keyword: " ++ String.mk kw))

/-- `parse_server_message`: parse a single line from the server. -/
def parse_server_message (line : String) : Except PyErr ServerMessage :=
  parseStripped (pyStrip line.data)

/-! ## State machine (`state.py`) -/

/-- Tracks the full game state by processing server messages
(`dataclass GameState`, with its field defaults). -/
structure GameState where
  game_id : String := ""
  player_id : Int := -1
  rejoin_token : String := ""
  player_name : String := ""
  phase : String := "lobby"
  round : Int := 0
  turn : Int := 0
  player_count : Int := 0
  max_players : Int := 0
  move_timeout_ms : Int := 0
  hand : List HandCard := []
  players : List String := []
  last_plays : List (String × List Card) := []
  round_scores : List (Int × List (String × RoundScore)) := []
  final_scores : List (String × Int) := []
  winners : List String := []
  next_game_id : Option String := none
  tournament_winner : Option String := none
  tournament_id : String := ""
  match_token : String := ""
  tournament_round : Int := 0
  tournament_opponent : Option String := none
deriving DecidableEq, Repr

/-- `GameState.update`: update state from a parsed server message.  The
Python method mutates in place; the model returns the new state. -/
def update (s : GameState) (msg : ServerMessage) : GameState :=
  match msg with
  | ServerMessage.welcome gid pid tok =>
      { s with game_id := gid, player_id := pid, rejoin_token := tok,
               phase := "lobby" }
  | ServerMessage.rejoined gid pid =>
      { s with game_id := gid, player_id := pid }
  | ServerMessage.playerJoined name pc mp =>
      { s with player_count := pc, max_players := mp,
               players := if name ∈ s.players then s.players
                          else s.players ++ [name] }
  | ServerMessage.playerLeft name =>
      if name ∈ s.players then
        let ps := s.players.erase name
        { s with players := ps, player_count := Int.ofNat ps.length }
      else s
  | ServerMessage.gameStart pc timeout =>
      { s with player_count := pc, move_timeout_ms := timeout,
               phase := "playing", round := 0, turn := 0 }
  | ServerMessage.roundStart r =>
      { s with round := r, turn := 0, last_plays := [] }
  | ServerMessage.hand cards =>
      { s with hand := cards, turn := s.turn + 1 }
  | ServerMessage.waiting _ => s
  | ServerMessage.turnResult plays =>
      { s with last_plays := plays }
  | ServerMessage.roundEnd r scores =>
      { s with round_scores := dictInsert s.round_scores r scores }
  | ServerMessage.gameEnd fs w nid tw =>
      { s with final_scores := fs, winners := w, next_game_id := nid,
               tournament_winner := tw, phase := "ended" }
  | ServerMessage.statusMsg st =>
      { s with game_id := st.game_id, phase := st.phase,
               round := st.round, turn := st.turn }
  | ServerMessage.tournamentWelcome tid _ _ _ =>
      { s with tournament_id := tid }
  | ServerMessage.tournamentMatchAssigned tid mt r opp =>
      { s with tournament_id := tid, match_token := mt,
               tournament_round := r, tournament_opponent := opp,
               phase := "lobby", round := 0, turn := 0,
               hand := [], last_plays := [], round_scores := [],
               final_scores := [], winners := [], next_game_id := none }
  | ServerMessage.tournamentComplete _ w =>
      { s with tournament_winner := some w }
  | _ => s

/-! ## The claim's hand-tokenization rule, stated from its words

Used to compare the spec sentence "a new index:name token begins
exactly where a run of digits is immediately followed by a colon;
everything between one such marker and the next (or the end of the
payload), including internal spaces, belongs to the current card's
name, which is then trimmed" against the source's regex. -/

/-- Advance to the first marker position: a (start of a) run of digits
immediately followed by a colon.  The boolean tracks whether the
previous character was a digit, so only run starts count. -/
def specFindMarker : List Char → Bool → Option (List Char)
  | [], _ => none
  | c :: t, prev =>
      if (!prev) && markerAt (c :: t) then some (c :: t)
      else specFindMarker t c.isDigit

/-- Split off the name: everything up to the next marker (or the end). -/
def specNameSplit : List Char → Bool → List Char × List Char
  | [], _ => ([], [])
  | c :: t, prev =>
      if (!prev) && markerAt (c :: t) then ([], c :: t)
      else
        let p := specNameSplit t c.isDigit
        (c :: p.1, p.2)

/-- Token list under the claim's rule. -/
def specHandTokensAux : Nat → List Char → List (List Char × List Char)
  | 0, _ => []
  | fuel + 1, l =>
      match specFindMarker l false with
      | none => []
      | some m =>
          let d := m.takeWhile Char.isDigit
          let after := m.drop (d.length + 1)
          let p := specNameSplit after false
          (d, p.1) :: specHandTokensAux fuel p.2

def specHandTokens (l : List Char) : List (List Char × List Char) :=
  specHandTokensAux (l.length + 1) l

/-- Hand parsing as the claim describes it: tokens split at every
digits-colon marker, names trimmed and resolved through the catalog. -/
def spec_hand_parse (payload : List Char) : Except PyErr (List HandCard) :=
  mapME (fun p =>
      (Card.from_name (String.mk (pyStrip p.2))).map
        (fun c => HandCard.mk (Int.ofNat (digitsVal p.1)) c))
    (specHandTokens payload)

/-! ## Valid message sequences (for the phase-monotonicity claim)

A valid sequence in the sense of the spec's
`Welcome→(Join-acks)→GameStart→RoundStart→Hand→...→GameEnd` chain,
optionally continued by tournament matches, is represented
structurally: one game is a Welcome, a block of PlayerJoined acks, a
GameStart, a block of in-round messages, and a GameEnd; a tournament
session is a first game followed by (match-assignment, game) pairs. -/

/-- The in-round message shapes that may appear between `GameStart` and
`GameEnd` in a valid sequence. -/
inductive BodyMsg where
  | roundStart (round : Int)
  | hand (cards : List HandCard)
  | waiting (players : List String)
  | turnResult (plays : List (String × List Card))
  | roundEnd (round : Int) (scores : List (String × RoundScore))

def BodyMsg.toMsg : BodyMsg → ServerMessage
  | .roundStart r => ServerMessage.roundStart r
  | .hand cs => ServerMessage.hand cs
  | .waiting ps => ServerMessage.waiting ps
  | .turnResult ps => ServerMessage.turnResult ps
  | .roundEnd r sc => ServerMessage.roundEnd r sc

/-- One game's worth of messages. -/
structure GameSeq where
  gid : String
  pid : Int
  tok : String
  joins : List (String × Int × Int)
  pc : Int
  timeout : Int
  body : List BodyMsg
  fs : List (String × Int)
  winners : List String
  nextId : Option String
  tw : Option String

def joinMsg (j : String × Int × Int) : ServerMessage :=
  ServerMessage.playerJoined j.1 j.2.1 j.2.2

def gameMsgs (g : GameSeq) : List ServerMessage :=
  ServerMessage.welcome g.gid g.pid g.tok ::
    (g.joins.map joinMsg ++
      (ServerMessage.gameStart g.pc g.timeout ::
        (g.body.map BodyMsg.toMsg ++
          [ServerMessage.gameEnd g.fs g.winners g.nextId g.tw])))

/-- A tournament match assignment boundary. -/
structure MatchAssign where
  tid : String
  mt : String
  r : Int
  opp : Option String

def maMsg (a : MatchAssign) : ServerMessage :=
  ServerMessage.tournamentMatchAssigned a.tid a.mt a.r a.opp

/-- Messages of the matches after the first. -/
def tailMsgs : List (MatchAssign × GameSeq) → List ServerMessage
  | [] => []
  | p :: rest => maMsg p.1 :: (gameMsgs p.2 ++ tailMsgs rest)

/-- A full valid sequence: a first game, then one
assignment-plus-game block per later match. -/
def validSeqMsgs (g0 : GameSeq) (rest : List (MatchAssign × GameSeq)) :
    List ServerMessage :=
  gameMsgs g0 ++ tailMsgs rest

def foldUpd (s : GameState) (ms : List ServerMessage) : GameState :=
  ms.foldl update s

/-- lobby < playing < ended. -/
def phaseRank (p : String) : Nat :=
  if p = "lobby" then 0 else if p = "playing" then 1 else 2

/-- Along a message list, every step keeps the phase rank
non-decreasing, except that a tournament match assignment is exactly a
re-entry into lobby from ended. -/
def phaseStepsOk : GameState → List ServerMessage → Prop
  | _, [] => True
  | s, m :: rest =>
      (match m with
       | ServerMessage.tournamentMatchAssigned _ _ _ _ =>
           s.phase = "ended" ∧ (update s m).phase = "lobby"
       | _ => phaseRank s.phase ≤ phaseRank (update s m).phase) ∧
        phaseStepsOk (update s m) rest

/-! ## Theorems -/

/-- C1 (counterexample): applying `TournamentMatchAssigned` does NOT
clear `tournament_winner`, although the claim lists the optional
tournament-winner among the cleared end-of-game fields: starting from a
state with `tournament_winner = some "Alice"`, the field survives the
reset. -/
theorem C1_counterexample :
    (update { tournament_winner := some "Alice" }
        (ServerMessage.tournamentMatchAssigned "t1" "m1" 1 none)).tournament_winner
      ≠ none := by
  decide

/-- C1 (amended): for every state and every `TournamentMatchAssigned`
message, `update` sets the four tournament-scoped fields from the
message, resets phase to lobby, and clears hand, last plays, round and
turn counters, round scores, final scores, winners and the next-game
id — while `tournament_winner` is left unchanged (not cleared).  All
remaining fields are also untouched, as the full record equation
shows. -/
theorem C1_match_assigned_reset (s : GameState) (tid mt : String) (r : Int)
    (opp : Option String) :
    update s (ServerMessage.tournamentMatchAssigned tid mt r opp) =
      { s with tournament_id := tid, match_token := mt,
               tournament_round := r, tournament_opponent := opp,
               phase := "lobby", round := 0, turn := 0,
               hand := [], last_plays := [], round_scores := [],
               final_scores := [], winners := [], next_game_id := none } := rfl

/-- C4: for every card kind the code and name round-trips hold, and for
every string that is no kind's code (resp. name) the lookup fails with
the kind-not-found `ValueError`. -/
theorem C4_card_roundtrip (k : Card) (s : String)
    (hc : ∀ j : Card, j.code ≠ s) (hn : ∀ j : Card, j.display_name ≠ s) :
    Card.from_code k.code = Except.ok k ∧
    Card.from_name k.display_name = Except.ok k ∧
    Card.from_code s =
      Except.error (PyErr.valueError ("Unknown card code: " ++ s)) ∧
    Card.from_name s =
      Except.error (PyErr.valueError ("Unknown card name: " ++ s)) := by
  refine ⟨?_, ?_, ?_, ?_⟩
  · cases k <;> rfl
  · cases k <;> rfl
  · unfold Card.from_code
    have hfind : cardList.find? (fun j => j.code = s) = none := by
      rw [List.find?_eq_none]
      intro x _
      simp [hc x]
    rw [hfind]
  · unfold Card.from_name
    have hfind : cardList.find? (fun j => j.display_name = s) = none := by
      rw [List.find?_eq_none]
      intro x _
      simp [hn x]
    rw [hfind]

/-- C4 witness: the round-trip for Tempura and failure at the unknown
string "XXX". -/
theorem C4_witness :
    Card.from_code Card.TEMPURA.code = Except.ok Card.TEMPURA ∧
    Card.from_name Card.TEMPURA.display_name = Except.ok Card.TEMPURA ∧
    Card.from_code "XXX" =
      Except.error (PyErr.valueError ("Unknown card code: " ++ "XXX")) ∧
    Card.from_name "XXX" =
      Except.error (PyErr.valueError ("Unknown card name: " ++ "XXX")) :=
  C4_card_roundtrip Card.TEMPURA "XXX" (by decide) (by decide)

/-- C6: the `GAME_END` example line parses, via the brace-balance scan
and the trailing `KEY:value` tokens, to the stated final scores,
winners, next-game id and tournament winner. -/
theorem C6_game_end_parse :
    parse_server_message
        "GAME_END \x7b\"Alice\":25,\"Bob\":18\x7d WINNER:Alice NEXT:game_2 TOURNAMENT_WINNER:Alice" =
      Except.ok (ServerMessage.gameEnd [("Alice", 25), ("Bob", 18)] ["Alice"]
        (some "game_2") (some "Alice")) := by
  rfl

/-- C7: applying the same `PlayerJoined` message twice yields exactly
the state of applying it once — the roster entry is appended only when
absent, so duplicate announcements never duplicate it. -/
theorem C7_player_joined_idempotent (s : GameState) (name : String)
    (pc mp : Int) :
    update (update s (ServerMessage.playerJoined name pc mp))
        (ServerMessage.playerJoined name pc mp) =
      update s (ServerMessage.playerJoined name pc mp) := by
  by_cases h : name ∈ s.players
  · simp [update, h]
  · simp [update, h]

/-- C9: a `PlayerLeft` whose name is not in the roster leaves the whole
state unchanged; in particular `player_count` is not recomputed. -/
theorem C9_player_left_frame (s : GameState) (name : String)
    (h : name ∉ s.players) :
    update s (ServerMessage.playerLeft name) = s := by
  simp [update, h]

/-- C9 witness: a departure announcement for an unknown name is a
no-op on a concrete one-player state. -/
theorem C9_witness :
    update { players := ["Alice"], player_count := 5 }
        (ServerMessage.playerLeft "Zoe") =
      ({ players := ["Alice"], player_count := 5 } : GameState) :=
  C9_player_left_frame _ _ (by decide)

/-- C10: a `Status` message overwrites exactly `game_id`, `phase`,
`round` and `turn` from the snapshot and nothing else; the phase is
taken verbatim, so a status can move the phase backward, e.g. from
ended to playing. -/
theorem C10_status_frame (s : GameState) (st : GameStatus) :
    update s (ServerMessage.statusMsg st) =
      { s with game_id := st.game_id, phase := st.phase,
               round := st.round, turn := st.turn } ∧
    (update { phase := "ended" }
        (ServerMessage.statusMsg
          { game_id := "g", phase := "playing", round := 2, turn := 1 })).phase
      = "playing" :=
  ⟨rfl, rfl⟩

/-- Every token the hand regex emits starts with a nonempty all-digit
group (the `(\d+)` capture). -/
lemma handTokensAux_digits (fuel : Nat) :
    ∀ (l : List Char) (t : List Char × List Char),
      t ∈ handTokensAux fuel l → t.1 ≠ [] ∧ t.1.all Char.isDigit = true := by
  induction fuel with
  | zero => intro l t h; simp [handTokensAux] at h
  | succ n ih =>
      intro l t h
      match l with
      | [] => simp [handTokensAux] at h
      | c :: rest =>
          rw [handTokensAux] at h
          by_cases hm : markerAt (c :: rest)
          · rw [if_pos hm] at h
            cases hs : scanG2 (afterColon (c :: rest)) with
            | none => rw [hs] at h; exact ih _ _ h
            | some nn =>
                rw [hs] at h
                rcases List.mem_cons.mp h with rfl | h'
                · constructor
                  · have hmd := hm
                    unfold markerAt at hmd
                    simp only [Bool.and_eq_true, decide_eq_true_eq] at hmd
                    exact hmd.1
                  · refine List.all_eq_true.mpr (fun x hx => ?_)
                    exact List.mem_takeWhile_imp hx
                · exact ih _ _ h'
          · rw [if_neg hm] at h; exact ih _ _ h

/-- C3 (amended): a token begins only where the regex matched a
nonempty run of digits (followed by a colon under `markerAt`); the
boundary between consecutive tokens additionally requires whitespace
before the next digits-colon marker, so the claim's "begins exactly
where digits are followed by a colon" does not hold (see the
counterexample); the concrete `HAND` example parses to the three
stated cards. -/
theorem C3_hand_tokenization (p : List Char) (t : List Char × List Char)
    (ht : t ∈ handTokens p) :
    (t.1 ≠ [] ∧ t.1.all Char.isDigit = true) ∧
    parse_server_message "HAND 0:Tempura 1:Sashimi 2:Salmon Nigiri" =
      Except.ok (ServerMessage.hand
        [HandCard.mk 0 Card.TEMPURA, HandCard.mk 1 Card.SASHIMI,
         HandCard.mk 2 Card.SALMON_NIGIRI]) :=
  ⟨handTokensAux_digits _ _ _ ht, rfl⟩

/-- C3 witness: the first token of `"0:Tempura"`. -/
theorem C3_witness :
    ((chars "0" ≠ [] ∧ (chars "0").all Char.isDigit = true) ∧
     parse_server_message "HAND 0:Tempura 1:Sashimi 2:Salmon Nigiri" =
       Except.ok (ServerMessage.hand
         [HandCard.mk 0 Card.TEMPURA, HandCard.mk 1 Card.SASHIMI,
          HandCard.mk 2 Card.SALMON_NIGIRI])) :=
  C3_hand_tokenization (chars "0:Tempura") (chars "0", chars "Tempura")
    (by decide)

/-- C3 (counterexample): on `"0:Tempura1:Sashimi"` the claim's rule
(a new token begins exactly where digits are followed by a colon)
yields two cards, but the source's regex — whose token boundary also
requires preceding whitespace — treats `"Tempura1:Sashimi"` as one
name and the parse fails. -/
theorem C3_counterexample :
    spec_hand_parse (chars "0:Tempura1:Sashimi") =
      Except.ok [HandCard.mk 0 Card.TEMPURA, HandCard.mk 1 Card.SASHIMI] ∧
    parse_server_message "HAND 0:Tempura1:Sashimi" =
      Except.error (PyErr.valueError "Unknown card name: Tempura1:Sashimi") :=
  ⟨rfl, rfl⟩

/-- A `mapME` fails whenever one element fails. -/
lemma mapME_err {α β : Type} (f : α → Except PyErr β) :
    ∀ (xs : List α) (x : α), x ∈ xs → isOkE (f x) = false →
      isOkE (mapME f xs) = false := by
  intro xs
  induction xs with
  | nil => intro x h; simp at h
  | cons a as ih =>
      intro x hmem hbad
      rw [mapME]
      rcases List.mem_cons.mp hmem with rfl | hmem'
      · cases hfa : f x with
        | error e => simp [hfa, isOkE]
        | ok b => rw [hfa] at hbad; simp [isOkE] at hbad
      · cases hfa : f a with
        | error e => simp [hfa, isOkE]
        | ok b =>
            have hrec := ih x hmem' hbad
            cases hrest : mapME f as with
            | error e2 => simp [hfa, hrest, isOkE]
            | ok bs => rw [hrest] at hrec; simp [isOkE] at hrec

/-- The entry loop of `_parse_played` fails whenever one entry fails. -/
lemma foldPlayed_err :
    ∀ (entries : List (List Char)) (e : List Char), e ∈ entries →
      isOkE (playedEntry e) = false →
      isOkE (foldPlayedEntries entries) = false := by
  intro entries
  induction entries with
  | nil => intro e h; simp at h
  | cons a as ih =>
      intro e hmem hbad
      rw [foldPlayedEntries]
      rcases List.mem_cons.mp hmem with rfl | hmem'
      · cases hfa : playedEntry e with
        | error err => simp [hfa, isOkE]
        | ok o => rw [hfa] at hbad; simp [isOkE] at hbad
      · cases hfa : playedEntry a with
        | error err => simp [hfa, isOkE]
        | ok o =>
            have hrec := ih e hmem' hbad
            cases o with
            | none => simpa [hfa] using hrec
            | some p =>
                cases hrest : foldPlayedEntries as with
                | error e2 => simp [hfa, hrest, isOkE]
                | ok l => rw [hrest] at hrec; simp [isOkE] at hrec

/-- An entry containing an unresolvable short code makes the entry's
processing fail. -/
lemma playedEntry_badcode (entry nm codesStr c : List Char)
    (hsplit : pySplitSub1 (chars ":") (pyStrip entry) = [nm, codesStr])
    (hc : c ∈ pySplitSub (chars ",") codesStr)
    (hcs : pyStrip c ≠ [])
    (hbad : isOkE (Card.from_code (String.mk (pyStrip c))) = false) :
    isOkE (playedEntry entry) = false := by
  unfold playedEntry
  have he : pyStrip entry ≠ [] := by
    intro h0
    have h1 : pySplitSub1 (chars ":") ([] : List Char) = [[]] := rfl
    rw [h0, h1] at hsplit
    simp at hsplit
  rw [if_neg he, hsplit]
  have hfilter : c ∈ (pySplitSub (chars ",") codesStr).filter
      (fun x => pyStrip x ≠ []) :=
    List.mem_filter.mpr ⟨hc, by simp [hcs]⟩
  have hmap := mapME_err
    (fun x => Card.from_code (String.mk (pyStrip x))) _ c hfilter hbad
  show isOkE
      (match mapME (fun x => Card.from_code (String.mk (pyStrip x)))
          ((pySplitSub (chars ",") codesStr).filter (fun x => pyStrip x ≠ [])) with
        | Except.error e => Except.error e
        | Except.ok cs => Except.ok (some (String.mk nm, cs))) = false
  cases hm : mapME (fun x => Card.from_code (String.mk (pyStrip x)))
      ((pySplitSub (chars ",") codesStr).filter (fun x => pyStrip x ≠ [])) with
  | error e => simp [hm, isOkE]
  | ok l => rw [hm] at hmap; simp [isOkE] at hmap

/-- C5: entries are split on "; " and each comma-separated code is
resolved through the catalog; if any code of any entry is
unresolvable, the whole parse fails (no partial result); the concrete
`PLAYED` example parses to the stated plays. -/
theorem C5_played_unresolvable (payload entry nm codesStr c : List Char)
    (he : entry ∈ pySplitSub (chars "; ") payload)
    (hsplit : pySplitSub1 (chars ":") (pyStrip entry) = [nm, codesStr])
    (hc : c ∈ pySplitSub (chars ",") codesStr)
    (hcs : pyStrip c ≠ [])
    (hbad : isOkE (Card.from_code (String.mk (pyStrip c))) = false) :
    isOkE (parse_played payload) = false ∧
    parse_server_message "PLAYED Alice:TMP; Bob:MK3,WAS" =
      Except.ok (ServerMessage.turnResult
        [("Alice", [Card.TEMPURA]), ("Bob", [Card.MAKI_3, Card.WASABI])]) := by
  constructor
  · exact foldPlayed_err _ entry he
      (playedEntry_badcode entry nm codesStr c hsplit hc hcs hbad)
  · rfl

/-- C5 witness: the unknown code "QQQ" fails the whole parse. -/
theorem C5_witness :
    isOkE (parse_played (chars "Alice:QQQ")) = false ∧
    parse_server_message "PLAYED Alice:TMP; Bob:MK3,WAS" =
      Except.ok (ServerMessage.turnResult
        [("Alice", [Card.TEMPURA]), ("Bob", [Card.MAKI_3, Card.WASABI])]) :=
  C5_played_unresolvable (chars "Alice:QQQ") (chars "Alice:QQQ")
    (chars "Alice") (chars "QQQ") (chars "QQQ")
    (by decide) (by decide) (by decide) (by decide) (by decide)

/-- The first whitespace-delimited token of a line. -/
def firstWsToken (l : List Char) : List Char :=
  (pyLStrip l).takeWhile (fun c => !(isPySpace c))

lemma dropWhile_append' {p : Char → Bool} :
    ∀ as bs : List Char, (as ++ bs).dropWhile p =
      if as.dropWhile p = [] then bs.dropWhile p else as.dropWhile p ++ bs := by
  intro as
  induction as with
  | nil => intro bs; simp
  | cons a t ih =>
      intro bs
      by_cases hp : p a
      · simp [List.dropWhile_cons, hp, ih]
      · simp [List.dropWhile_cons, hp]

lemma takeWhile_all_append {p : Char → Bool} :
    ∀ as bs : List Char, (∀ a ∈ as, p a = true) →
      (as ++ bs).takeWhile p = as ++ bs.takeWhile p := by
  intro as
  induction as with
  | nil => intro bs _; simp
  | cons a t ih =>
      intro bs hall
      have hpa : p a = true := hall a (by simp)
      rw [List.cons_append, List.takeWhile_cons, if_pos hpa,
        ih bs (fun x hx => hall x (by simp [hx])), List.cons_append]

lemma dropWhile_head_false {p : Char → Bool} :
    ∀ (l : List Char) (c : Char) (cs : List Char),
      l.dropWhile p = c :: cs → p c = false := by
  intro l
  induction l with
  | nil => intro c cs h; simp at h
  | cons a t ih =>
      intro c cs h
      by_cases hp : p a
      · rw [List.dropWhile_cons, if_pos hp] at h; exact ih _ _ h
      · rw [List.dropWhile_cons, if_neg hp] at h
        cases h
        simpa using hp

lemma pyRStrip_append (xs ys : List Char) :
    pyRStrip (xs ++ ys) =
      if pyRStrip ys = [] then pyRStrip xs else xs ++ pyRStrip ys := by
  unfold pyRStrip
  rw [List.reverse_append, dropWhile_append']
  by_cases hy : ys.reverse.dropWhile isPySpace = []
  · simp [hy]
  · rw [if_neg hy, if_neg (by simp [hy]), List.reverse_append,
      List.reverse_reverse]

lemma dropWhile_suffix_ex {p : Char → Bool} :
    ∀ l : List Char, ∃ v, v ++ l.dropWhile p = l := by
  intro l
  induction l with
  | nil => exact ⟨[], rfl⟩
  | cons a t ih =>
      by_cases hp : p a
      · obtain ⟨v, hv⟩ := ih
        exact ⟨a :: v, by rw [List.dropWhile_cons, if_pos hp, List.cons_append, hv]⟩
      · exact ⟨[], by rw [List.dropWhile_cons, if_neg hp, List.nil_append]⟩

lemma pyRStrip_prefix (l : List Char) : ∃ u, pyRStrip l ++ u = l := by
  obtain ⟨v, hv⟩ := dropWhile_suffix_ex (p := isPySpace) l.reverse
  refine ⟨v.reverse, ?_⟩
  unfold pyRStrip
  rw [← List.reverse_append, hv, List.reverse_reverse]

/-- C2 (amended): every line whose first whitespace-delimited token is
the error keyword never parses to a success value; a well-formed error
line such as the E001 example fails with a `ProtocolError` carrying the
numeric code and the free-text message. -/
theorem C2_error_lines (line : String)
    (h : firstWsToken line.data = chars "ERROR") :
    isOkE (parse_server_message line) = false ∧
    parse_server_message "ERROR E001 Invalid command format" =
      Except.error (PyErr.protocolError 1 "Invalid command format") := by
  refine ⟨?_, rfl⟩
  have hsplit :
      chars "ERROR" ++ (pyLStrip line.data).dropWhile (fun c => !(isPySpace c)) =
        pyLStrip line.data := by
    conv_rhs => rw [← List.takeWhile_append_dropWhile
      (p := fun c => !(isPySpace c)) (l := pyLStrip line.data)]
    rw [← h]; rfl
  have hstrip0 : pyStrip line.data =
      pyRStrip (chars "ERROR" ++
        (pyLStrip line.data).dropWhile (fun c => !(isPySpace c))) := by
    unfold pyStrip
    rw [hsplit]
  rw [pyRStrip_append] at hstrip0
  by_cases hre :
      pyRStrip ((pyLStrip line.data).dropWhile (fun c => !(isPySpace c))) = []
  · rw [if_pos hre] at hstrip0
    have hconc : pyRStrip (chars "ERROR") = chars "ERROR" := rfl
    rw [hconc] at hstrip0
    show isOkE (parseStripped (pyStrip line.data)) = false
    rw [hstrip0]
    rfl
  · rw [if_neg hre] at hstrip0
    obtain ⟨c, cs, hr, hc⟩ :
        ∃ c cs, (pyLStrip line.data).dropWhile (fun c => !(isPySpace c)) =
            c :: cs ∧ isPySpace c = true := by
      cases hq : (pyLStrip line.data).dropWhile (fun c => !(isPySpace c)) with
      | nil => rw [hq] at hre; exact absurd rfl hre
      | cons c cs =>
          refine ⟨c, cs, rfl, ?_⟩
          have := dropWhile_head_false _ _ _ hq
          simpa using this
    rw [hr] at hstrip0 hre
    obtain ⟨cs', hr'⟩ : ∃ cs', pyRStrip (c :: cs) = c :: cs' := by
      obtain ⟨u, hu⟩ := pyRStrip_prefix (c :: cs)
      cases hq : pyRStrip (c :: cs) with
      | nil => exact absurd hq hre
      | cons d ds =>
          rw [hq, List.cons_append] at hu
          injection hu with h1 _
          subst h1
          exact ⟨ds, rfl⟩
    rw [hr'] at hstrip0
    show isOkE (parseStripped (pyStrip line.data)) = false
    rw [hstrip0]
    unfold parseStripped
    rw [if_neg (by simp)]
    by_cases hsp : c = ' '
    · have hkw : (pyPartitionSp (chars "ERROR" ++ c :: cs')).1 = chars "ERROR" := by
        subst hsp
        unfold pyPartitionSp
        rw [takeWhile_all_append _ _ (by decide), List.takeWhile_cons]
        simp
      rw [hkw]
      rfl
    · have hkw : (pyPartitionSp (chars "ERROR" ++ c :: cs')).1 =
          chars "ERROR" ++ c :: cs'.takeWhile (fun d => d ≠ ' ') := by
        unfold pyPartitionSp
        rw [takeWhile_all_append _ _ (by decide), List.takeWhile_cons,
          if_pos (by simpa using hsp)]
      rw [hkw]
      rfl

/-- C2 witness: the E001 example satisfies the hypothesis and parses
to the stated `ProtocolError`. -/
theorem C2_witness :
    isOkE (parse_server_message "ERROR E001 Invalid command format") = false ∧
    parse_server_message "ERROR E001 Invalid command format" =
      Except.error (PyErr.protocolError 1 "Invalid command format") :=
  C2_error_lines "ERROR E001 Invalid command format" (by decide)

/-- C2 (counterexample): the bare line `"ERROR"` has the error keyword
as its first whitespace-delimited token, yet `parse_server_message`
fails with the `ValueError` from `ProtocolError.from_line` (fewer than
three parts), not with a `ProtocolError` carrying a code and message as
the claim requires. -/
theorem C2_counterexample :
    firstWsToken (chars "ERROR") = chars "ERROR" ∧
    isProtocolFailure (parse_server_message "ERROR") = false ∧
    parse_server_message "ERROR" =
      Except.error (PyErr.valueError "Not an error line: ERROR") := by
  refine ⟨by decide, by decide, rfl⟩

lemma stepsOk_append :
    ∀ (a b : List ServerMessage) (s : GameState),
      phaseStepsOk s (a ++ b) ↔
        phaseStepsOk s a ∧ phaseStepsOk (foldUpd s a) b := by
  intro a
  induction a with
  | nil => intro b s; simp [phaseStepsOk, foldUpd]
  | cons m rest ih =>
      intro b s
      rw [List.cons_append]
      simp only [phaseStepsOk]
      rw [ih]
      unfold foldUpd
      rw [List.foldl_cons]
      exact and_assoc.symm

lemma bodies_phase :
    ∀ (bs : List BodyMsg) (s : GameState),
      phaseStepsOk s (bs.map BodyMsg.toMsg) ∧
        (foldUpd s (bs.map BodyMsg.toMsg)).phase = s.phase := by
  intro bs
  induction bs with
  | nil => intro s; exact ⟨trivial, rfl⟩
  | cons b rest ih =>
      intro s
      have hb : (update s b.toMsg).phase = s.phase := by
        cases b <;> rfl
      constructor
      · refine ⟨?_, (ih (update s b.toMsg)).1⟩
        cases b <;> exact le_refl _
      · show (foldUpd s (b.toMsg :: rest.map BodyMsg.toMsg)).phase = s.phase
        unfold foldUpd
        rw [List.foldl_cons]
        have h2 := (ih (update s b.toMsg)).2
        unfold foldUpd at h2
        rw [h2, hb]

lemma joins_phase :
    ∀ (js : List (String × Int × Int)) (s : GameState),
      phaseStepsOk s (js.map joinMsg) ∧
        (foldUpd s (js.map joinMsg)).phase = s.phase := by
  intro js
  induction js with
  | nil => intro s; exact ⟨trivial, rfl⟩
  | cons j rest ih =>
      intro s
      have hj : (update s (joinMsg j)).phase = s.phase := rfl
      constructor
      · exact ⟨le_refl _, (ih (update s (joinMsg j))).1⟩
      · show (foldUpd s (joinMsg j :: rest.map joinMsg)).phase = s.phase
        unfold foldUpd
        rw [List.foldl_cons]
        have h2 := (ih (update s (joinMsg j))).2
        unfold foldUpd at h2
        rw [h2, hj]

/-- One game's messages, started from a lobby-phase state, keep the
phase rank non-decreasing and end in phase "ended". -/
lemma game_phase (g : GameSeq) (s : GameState) (hs : s.phase = "lobby") :
    phaseStepsOk s (gameMsgs g) ∧ (foldUpd s (gameMsgs g)).phase = "ended" := by
  unfold gameMsgs
  constructor
  · refine ⟨?_, ?_⟩
    · rw [hs]; exact le_refl _
    · rw [stepsOk_append]
      refine ⟨(joins_phase g.joins _).1, ?_⟩
      have hlob : (foldUpd (update s (ServerMessage.welcome g.gid g.pid g.tok))
          (g.joins.map joinMsg)).phase = "lobby" := (joins_phase g.joins _).2
      refine ⟨?_, ?_⟩
      · rw [hlob]; exact Nat.zero_le _
      · rw [stepsOk_append]
        refine ⟨(bodies_phase g.body _).1, ?_⟩
        have hpl : (foldUpd (update (foldUpd
            (update s (ServerMessage.welcome g.gid g.pid g.tok))
            (g.joins.map joinMsg)) (ServerMessage.gameStart g.pc g.timeout))
              (g.body.map BodyMsg.toMsg)).phase = "playing" :=
          (bodies_phase g.body _).2
        refine ⟨?_, trivial⟩
        rw [hpl]
        exact (by decide : (1 : Nat) ≤ 2)
  · unfold foldUpd
    rw [List.foldl_cons, List.foldl_append, List.foldl_cons, List.foldl_append,
      List.foldl_cons, List.foldl_nil]
    rfl

/-- The tail of a tournament session (assignment + game, repeatedly),
started from an ended-phase state, satisfies the step condition. -/
lemma tail_phase :
    ∀ (rest : List (MatchAssign × GameSeq)) (s : GameState),
      s.phase = "ended" → phaseStepsOk s (tailMsgs rest) := by
  intro rest
  induction rest with
  | nil => intro s _; trivial
  | cons p rest' ih =>
      intro s hs
      show phaseStepsOk s (maMsg p.1 :: (gameMsgs p.2 ++ tailMsgs rest'))
      refine ⟨⟨hs, rfl⟩, ?_⟩
      rw [stepsOk_append]
      obtain ⟨hg1, hg2⟩ := game_phase p.2 (update s (maMsg p.1)) rfl
      exact ⟨hg1, ih _ hg2⟩

/-- C8: along every valid sequence
Welcome→(Join-acks)→GameStart→(round messages)→GameEnd, continued by
tournament matches, the phase rank lobby(0)→playing(1)→ended(2) never
decreases at any step other than a `TournamentMatchAssigned`, and each
such assignment — exactly one per match after the first — is exactly
one re-entry into lobby from ended. -/
theorem C8_phase_monotone (s : GameState) (g0 : GameSeq)
    (rest : List (MatchAssign × GameSeq)) (hs : s.phase = "lobby") :
    phaseStepsOk s (validSeqMsgs g0 rest) := by
  unfold validSeqMsgs
  rw [stepsOk_append]
  obtain ⟨h1, h2⟩ := game_phase g0 s hs
  exact ⟨h1, tail_phase rest _ h2⟩

/-- C8 witness: a concrete two-match tournament session from the
initial state. -/
theorem C8_witness :
    phaseStepsOk {} (validSeqMsgs
      { gid := "g1", pid := 0, tok := "t", joins := [("A", 1, 2)], pc := 2,
        timeout := 300, body := [BodyMsg.roundStart 1], fs := [("A", 10)],
        winners := ["A"], nextId := none, tw := none }
      [({ tid := "T", mt := "m", r := 1, opp := none },
        { gid := "g2", pid := 0, tok := "t2", joins := [], pc := 2,
          timeout := 300, body := [], fs := [], winners := [],
          nextId := none, tw := none })]) :=
  C8_phase_monotone {} _ _ rfl

end SushiGo
